import Mathlib

/-!
Verification of the OHNM loss engine: the two loss-computation variants
`OHNMClassicImipLoss.forward_with_log_data` (Variant A, probability/NLL form,
`epipointnet/imips_pytorch/losses/ohnm_avg_outlier_balanced_classic.py`) and
`OHNMBCELoss.forward_with_log_data` (Variant B, logit/BCE form,
`imipnet/losses/ohnm_outlier_balanced_bce.py`).

Tensors are embedded as functions from indices to real numbers together with
explicit shape parameters; boolean label vectors as functions `Nat → Bool`.
`C` is the channel count, `N` the number of candidate patches per channel,
`B = C * N` the number of batch rows (the code asserts `B % C == 0` and
computes `N = B // C`).
-/

/-- Embedding of `torch.sigmoid`, the logistic squashing function. -/
noncomputable def sigmoid (x : ℝ) : ℝ := 1 / (1 + Real.exp (-x))

/-- Inverse of `sigmoid` on (0,1); used to build concrete raw-score inputs
whose squashed values are prescribed probabilities. -/
noncomputable def logit (p : ℝ) : ℝ := Real.log (p / (1 - p))

/-- Embedding of `-1 * torch.log(torch.max(v, eps))`: negative log with the epsilon floor
applied before the logarithm (Variant A). -/
noncomputable def nll (eps v : ℝ) : ℝ := -Real.log (max v eps)

/-- Embedding of `torch.nn.functional.binary_cross_entropy_with_logits` on a single element
with weight `w`, input (logit) `x` and target `y`, mathematically
`w * (-(y*log σ(x) + (1-y)*log (1-σ(x))))` (Variant B). -/
noncomputable def bceWithLogits (w x y : ℝ) : ℝ :=
  w * -(y * Real.log (sigmoid x) + (1 - y) * Real.log (1 - sigmoid x))

/-- Embedding of `_add_if_not_none(x, y)`: `x + y` if `y` is present, else `x`
(shared by both variants' aggregation). -/
def addIfNotNone (x : ℝ) (y : Option ℝ) : ℝ :=
  match y with
  | none => x
  | some v => x + v

/-!
## Shared index algebra (Batch Layout Decoder / Alignment Classifier)

Both variants build the same boolean selections from the label vectors.
`inl`/`out` are the per-channel inlier/outlier label vectors (length `C`).
-/

/-- Entry `j` of `expanded_inlier_labels`: a length-`B` vector that is zero except at the
maximum patch indices `0, N, 2N, ...`, where it carries the channel's inlier
label (`expanded_inlier_labels[maximum_patch_index] = inlier_labels`). -/
def expandedInlier (N : Nat) (inl : Nat → Bool) (j : Nat) : Bool :=
  decide (j % N = 0) && inl (j / N)

/-- Embedding of `has_data_labels = inlier_labels | outlier_labels`. -/
def hasData (inl out : Nat → Bool) (c : Nat) : Bool := inl c || out c

/-- Embedding of `expanded_outlier_labels = has_data_labels.repeat_interleave(N) & ~expanded_inlier_labels`. -/
def expandedOutlier (N : Nat) (inl out : Nat → Bool) (j : Nat) : Bool :=
  hasData inl out (j / N) && !expandedInlier N inl j

/-- Entry (j, c) of `maxima_outlier_index_2d = expanded_outlier_labels[:, None] * repeat_interleave(eye(C))`. -/
def maximaOutlierIndex (N : Nat) (inl out : Nat → Bool) (j c : Nat) : Bool :=
  expandedOutlier N inl out j && decide (j / N = c)

/-- Embedding of `unaligned_inlier_index = torch.diag(inlier_labels) ^ inlier_labels.unsqueeze(1)`:
entry (r, c) is the xor of the diagonal matrix of inlier labels with the
column-vector broadcast of the inlier labels along dim 1. -/
def unalignedInlierIndex (inl : Nat → Bool) (r c : Nat) : Bool :=
  Bool.xor (decide (r = c) && inl r) (inl r)

/-- Modelled from the spec (§4.2), for refinement comparison only: the
"exclusive-or of the identity diagonal and the outer-product broadcast of
inlier labels", reading "outer product" literally as `inl r && inl c`
(the reading asserted by the claim: row inlier AND column inlier, off-diagonal). -/
def unalignedInlierIndexSpec (inl : Nat → Bool) (r c : Nat) : Bool :=
  Bool.xor (decide (r = c) && inl r) (inl r && inl c)

/-- Row indices selected by the correspondence-outlier selection
`torch.diag(outlier_labels)`: the diagonal cells (i, i) with `out i`. -/
def corrOutlierSel (C : Nat) (out : Nat → Bool) : List Nat :=
  (List.range C).filter (fun i => out i)

/-- Rows `j` with `expanded_inlier_labels[j]` set; the row-major flattening of
`maxima_inlier_index_2d` selects exactly `(j, j / N)` for these rows. -/
def inlierSelRows (C N : Nat) (inl : Nat → Bool) : List Nat :=
  (List.range (C * N)).filter (fun j => expandedInlier N inl j)

/-- Rows `j` with `expanded_outlier_labels[j]` set; nonempty exactly when
`maxima_outlier_index_2d.sum() != 0`. -/
def outlierSelRows (C N : Nat) (inl out : Nat → Bool) : List Nat :=
  (List.range (C * N)).filter (fun j => expandedOutlier N inl out j)

/-- Rows `j` with `has_data_labels.repeat_interleave(N)[j]` set (Variant B's
maxima selection `maxima_has_data_index_2d`, flattened row-major, selects
exactly `(j, j / N)` for these rows, in row order, which is also the order of
the masked select `expanded_inlier_labels[expanded_has_data_labels]`). -/
def maximaRows (C N : Nat) (inl out : Nat → Bool) : List Nat :=
  (List.range (C * N)).filter (fun j => hasData inl out (j / N))

/-- Row-major flattening of the cells of a CxC matrix selected by
`unaligned_inlier_index` (advanced boolean-mask indexing). -/
def unalignedSelPairs (C : Nat) (inl : Nat → Bool) : List (Nat × Nat) :=
  (List.range C).flatMap (fun r =>
    ((List.range C).filter (fun c => unalignedInlierIndex inl r c)).map (fun c => (r, c)))

/-!
## Variant A: `OHNMClassicImipLoss.forward_with_log_data`

`mo j c` is the (center-extracted) raw maximizer output at batch row `j`,
channel `c`; `co i j` the raw correspondence output.  The code squashes both
through `torch.sigmoid` before all selections and comparisons.
-/

/-- Variant A term `outlier_correspondence_loss`: `None` when the correspondence-outlier
selection is empty, else `sum(-log(max(p, eps)))` over the squashed diagonal
responses at outlier channels. -/
noncomputable def outlierCorrespondenceLossA (C : Nat) (co : Nat → Nat → ℝ)
    (out : Nat → Bool) (eps : ℝ) : Option ℝ :=
  if (corrOutlierSel C out).isEmpty then none
  else some (((corrOutlierSel C out).map (fun i => nll eps (sigmoid (co i i)))).sum)

/-- Variant A term `outlier_maximizer_loss`: `None` when `maxima_outlier_index_2d.sum() == 0`,
else the sum over channels of the per-channel sum of `-log(max(1 - p, eps))`
over that channel's outlier-selected patches, divided by the per-channel
outlier count clamped below at 1 (`clamp_min(1.0)`). -/
noncomputable def outlierMaximizerLossA (C N : Nat) (mo : Nat → Nat → ℝ)
    (inl out : Nat → Bool) (eps : ℝ) : Option ℝ :=
  if (outlierSelRows C N inl out).isEmpty then none
  else some (((List.range C).map (fun c =>
    (((List.range (C * N)).filter (fun j => maximaOutlierIndex N inl out j c)).map
      (fun j => nll eps (1 - sigmoid (mo j c)))).sum /
    max ((((List.range (C * N)).filter (fun j => maximaOutlierIndex N inl out j c)).length : ℝ)) 1)).sum)

/-- Variant A term `inlier_maximizer_loss` (`inlier_loss` in the code): `None` when the
maxima-inlier selection is empty, else `sum(-log(max(p, eps)))` over the
squashed scores at the selected cells `(j, j / N)`. -/
noncomputable def inlierMaximizerLossA (C N : Nat) (mo : Nat → Nat → ℝ)
    (inl : Nat → Bool) (eps : ℝ) : Option ℝ :=
  if (inlierSelRows C N inl).isEmpty then none
  else some (((inlierSelRows C N inl).map (fun j => nll eps (sigmoid (mo j (j / N))))).sum)

/-- Variant A term `unaligned_maximizer_loss`: the sum of the squashed maximizing-patch scores
(row `r` of `maximizer_outputs[maximum_patch_index]` is original row `r * N`)
over the `unaligned_inlier_index` selection.  When the selection is empty the
code replaces the (empty, hence zero) sum with a fresh zero tensor, so the
value is the plain sum in every case. -/
noncomputable def unalignedMaximizerLossA (C N : Nat) (mo : Nat → Nat → ℝ)
    (inl : Nat → Bool) : ℝ :=
  ((unalignedSelPairs C inl).map (fun p => sigmoid (mo (p.1 * N) p.2))).sum

/-- The tuple returned by Variant A: the total loss and the logged components
(`None` marks an absent term; `unaligned_maximizer_loss` is always a tensor). -/
structure ResultA where
  totalLoss : ℝ
  outlierCorrespondenceLoss : Option ℝ
  outlierMaximizerLoss : Option ℝ
  inlierMaximizerLoss : Option ℝ
  unalignedMaximizerLoss : ℝ

/-- Variant A after shape normalization: `total_loss` starts at zero and
accumulates, via `_add_if_not_none`, the correspondence-outlier, maxima-outlier,
maxima-inlier terms and (always) the unaligned term. -/
noncomputable def forwardACore (C N : Nat) (mo co : Nat → Nat → ℝ)
    (inl out : Nat → Bool) (eps : ℝ) : ResultA :=
  let ocl := outlierCorrespondenceLossA C co out eps
  let oml := outlierMaximizerLossA C N mo inl out eps
  let iml := inlierMaximizerLossA C N mo inl eps
  let uml := unalignedMaximizerLossA C N mo inl
  { totalLoss :=
      addIfNotNone (addIfNotNone (addIfNotNone (addIfNotNone 0 ocl) oml) iml) (some uml)
    outlierCorrespondenceLoss := ocl
    outlierMaximizerLoss := oml
    inlierMaximizerLoss := iml
    unalignedMaximizerLoss := uml }

/-!
## Variant B: `OHNMBCELoss.forward_with_log_data`

Variant B works on raw (unsquashed) scores with BCE-with-logits, and keeps one
piece of cross-call state: `_bce_maxima_outlier_weights`, a map from the string
of `N` to the memoized outlier class weight.  `str` is injective on naturals,
so the cache is embedded as an association list keyed by `N` itself.
-/

/-- The closed-form outlier class weight expression
`k * log(k - 1) - log((k - 1)/k) - k * log(k) + 1` evaluated at `k = N`
(`_get_bce_maxima_outlier_weight`, cache-miss branch). -/
noncomputable def wClosed (k : ℝ) : ℝ :=
  k * Real.log (k - 1) - Real.log ((k - 1) / k) - k * Real.log k + 1

/-- The cache installed by `OHNMBCELoss.__init__`: the single entry
`{"1": torch.tensor(1.0)}`. -/
noncomputable def initialWeightCache : List (Nat × ℝ) := [(1, 1)]

/-- Embedding of `_get_bce_maxima_outlier_weight`: look the key up in the cache; on a miss,
evaluate the closed form and store it.  Returns the weight together with the
cache after the call. -/
noncomputable def getBceMaximaOutlierWeight (cache : List (Nat × ℝ)) (n : Nat) :
    ℝ × List (Nat × ℝ) :=
  match cache.lookup n with
  | some v => (v, cache)
  | none => (wClosed n, (n, wClosed n) :: cache)

/-- Variant B term `aligned_corr_losses`: `None` when the correspondence-outlier selection is
empty, else BCE-with-logits of the raw diagonal responses at outlier channels
against the all-ones target (`aligned_corr_labels`), summed. -/
noncomputable def alignedCorrLossB (C : Nat) (co : Nat → Nat → ℝ)
    (out : Nat → Bool) : Option ℝ :=
  if (corrOutlierSel C out).isEmpty then none
  else some (((corrOutlierSel C out).map (fun i => bceWithLogits 1 (co i i) 1)).sum)

/-- The sum inside `maxima_losses` given the outlier class weight `w`: over
every row `j` carrying ground-truth data, BCE-with-logits of `mo j (j / N)`
against target `expanded_inlier_labels[j]`, with weight 1 on inlier targets and
`w` on the rest (`maxima_weights[~labels] = w`). -/
noncomputable def maximaLossSumB (C N : Nat) (mo : Nat → Nat → ℝ)
    (inl out : Nat → Bool) (w : ℝ) : ℝ :=
  ((maximaRows C N inl out).map (fun j =>
    bceWithLogits (if expandedInlier N inl j then 1 else w) (mo j (j / N))
      (if expandedInlier N inl j then 1 else 0))).sum

/-- Variant B term `unaligned_maxima_losses`: `None` when the unaligned selection is empty,
else BCE-with-logits of the raw maximizing-patch scores against the all-zeros
target (`unaligned_bce_labels`), summed. -/
noncomputable def unalignedMaximizerLossB (C N : Nat) (mo : Nat → Nat → ℝ)
    (inl : Nat → Bool) : Option ℝ :=
  if (unalignedSelPairs C inl).isEmpty then none
  else some (((unalignedSelPairs C inl).map (fun p => bceWithLogits 1 (mo (p.1 * N) p.2) 0)).sum)

/-- The tuple returned by Variant B: total loss and logged components. -/
structure ResultB where
  totalLoss : ℝ
  bceMaximizerLoss : Option ℝ
  outlierCorrespondenceLoss : Option ℝ
  unalignedMaximizerLoss : Option ℝ

/-- Variant B after shape normalization.  The weight lookup happens only inside
the non-empty branch of the maxima term, so the cache is updated exactly when
that selection is nonempty.  Returns the result together with the cache state
after the call. -/
noncomputable def forwardBCore (C N : Nat) (mo co : Nat → Nat → ℝ)
    (inl out : Nat → Bool) (cache : List (Nat × ℝ)) : ResultB × List (Nat × ℝ) :=
  let acl := alignedCorrLossB C co out
  let gw := getBceMaximaOutlierWeight cache N
  let ml := if (maximaRows C N inl out).isEmpty then none
    else some (maximaLossSumB C N mo inl out gw.1)
  let cache2 := if (maximaRows C N inl out).isEmpty then cache else gw.2
  let uml := unalignedMaximizerLossB C N mo inl
  ({ totalLoss := addIfNotNone (addIfNotNone (addIfNotNone 0 ml) acl) uml
     bceMaximizerLoss := ml
     outlierCorrespondenceLoss := acl
     unalignedMaximizerLoss := uml }, cache2)

/-!
## Shape-checked wrappers

The public entry points receive 4-D tensors `B x C x Sh x Sw`.  After the
asserts and center extraction, `torch.squeeze()` removes every dimension of
size 1, so the data reaches the 2-D core only if neither `B` nor `C` is 1.
With `C = 1` the squeezed correspondence tensor is 0-dimensional and the 2-D
boolean-mask index raises an `IndexError`; with `C >= 2` but `B = 1` divisible
by `C` cannot happen; with `B = 0` the `torch.arange(0, B, N)` call has step
`N = 0` and raises.  The guards below mirror those failure points in source
order.
-/

/-- Embedding of `torch.squeeze`: drop every dimension of extent 1 from a shape. -/
def squeezeShape (s : List Nat) : List Nat := s.filter (fun n => n ≠ 1)

/-- Variant A entry point with the shape contract of the 4-D interface:
asserts, center extraction, squeeze, then the core.  Errors are the Python
exceptions raised on the corresponding source lines. -/
noncomputable def forwardAChecked (B C Sh Sw : Nat) (mo co : Nat → Nat → ℝ)
    (inl out : Nat → Bool) (eps : ℝ) : Except String ResultA :=
  if B % C ≠ 0 then .error "AssertionError"
  else if Sh ≠ Sw then .error "AssertionError"
  else if (squeezeShape [C, C]).length ≠ 2 then
    .error "IndexError"
  else if (squeezeShape [B, C]).length ≠ 2 then
    .error "IndexError"
  else if B = 0 then .error "RuntimeError"
  else .ok (forwardACore C (B / C) mo co inl out eps)

/-- Variant B entry point with the shape contract of the 4-D interface. -/
noncomputable def forwardBChecked (B C Sh Sw : Nat) (mo co : Nat → Nat → ℝ)
    (inl out : Nat → Bool) (cache : List (Nat × ℝ)) :
    Except String (ResultB × List (Nat × ℝ)) :=
  if B % C ≠ 0 then .error "AssertionError"
  else if Sh ≠ Sw then .error "AssertionError"
  else if (squeezeShape [C, C]).length ≠ 2 then
    .error "IndexError"
  else if (squeezeShape [B, C]).length ≠ 2 then
    .error "IndexError"
  else if B = 0 then .error "RuntimeError"
  else .ok (forwardBCore C (B / C) mo co inl out cache)

/-!
## Concrete inputs for the spec's scenarios

Raw scores are written as `logit p`, so that the squashed score seen by the
selections is exactly the probability `p` named by the scenario.
-/

/-- A zero score matrix. -/
noncomputable def zeroMat : Nat → Nat → ℝ := fun _ _ => 0

/-- An all-true label vector. -/
def allTrue : Nat → Bool := fun _ => true

/-- An all-false label vector. -/
def allFalse : Nat → Bool := fun _ => false

/-- Inlier labels [true, false, true] of the unaligned-term scenario (C=3, N=1). -/
def inlC1 : Nat → Bool := fun i => !decide (i = 1)

/-- Maximizer scores of the unaligned-term scenario: squashed own-block
(diagonal) scores [0.7, 0.3, 0.6], and distinct squashed off-diagonal scores
0.1, 0.2 in row 0 and 0.3, 0.4 in row 2. -/
noncomputable def moC1 : Nat → Nat → ℝ := fun r c =>
  if r = 0 then (if c = 0 then logit (7/10) else if c = 1 then logit (1/10) else logit (1/5))
  else if r = 1 then (if c = 1 then logit (3/10) else 0)
  else (if c = 0 then logit (3/10) else if c = 1 then logit (2/5) else logit (3/5))

/-- Maximizer scores of scenario 1 (C=2, N=2): channel 0's own block (rows 0-1,
column 0) squashes to [0.9, 0.1] and channel 1's own block (rows 2-3, column 1)
squashes to [0.2, 0.8]. -/
noncomputable def moC2 : Nat → Nat → ℝ := fun j c =>
  if c = 0 then (if j = 0 then logit (9/10) else if j = 1 then logit (1/10) else 0)
  else (if j = 2 then logit (1/5) else if j = 3 then logit (4/5) else 0)

/-- Correspondence scores of scenario 2 (C=2, N=1): diagonal squashes to
[0.95, 0.9]. -/
noncomputable def coC6 : Nat → Nat → ℝ := fun i j =>
  if i = 0 then (if j = 0 then logit (19/20) else 0)
  else (if j = 1 then logit (9/10) else 0)

/-!
## Basic numeric lemmas
-/

theorem sigmoid_pos (x : ℝ) : 0 < sigmoid x := by
  unfold sigmoid
  positivity

theorem sigmoid_lt_one (x : ℝ) : sigmoid x < 1 := by
  unfold sigmoid
  rw [div_lt_one (by positivity)]
  have h := Real.exp_pos (-x)
  linarith

theorem sigmoid_logit {p : ℝ} (h0 : 0 < p) (h1 : p < 1) : sigmoid (logit p) = p := by
  unfold sigmoid logit
  have h2 : (0:ℝ) < 1 - p := by linarith
  rw [← Real.log_inv, Real.exp_log (inv_pos.mpr (div_pos h0 h2))]
  field_simp

theorem nll_nonneg {eps v : ℝ} (h0 : 0 < eps) (h1 : eps ≤ 1) (hv : v ≤ 1) :
    0 ≤ nll eps v := by
  unfold nll
  have hle : max v eps ≤ 1 := max_le hv h1
  have := Real.log_nonpos (le_max_of_le_right h0.le) hle
  linarith

theorem log_sigmoid_nonpos (x : ℝ) : Real.log (sigmoid x) ≤ 0 :=
  Real.log_nonpos (sigmoid_pos x).le (sigmoid_lt_one x).le

theorem log_one_sub_sigmoid_nonpos (x : ℝ) : Real.log (1 - sigmoid x) ≤ 0 :=
  Real.log_nonpos (by have := sigmoid_lt_one x; linarith)
    (by have := sigmoid_pos x; linarith)

theorem bceWithLogits_nonneg {w x y : ℝ} (hw : 0 ≤ w) (hy : y = 0 ∨ y = 1) :
    0 ≤ bceWithLogits w x y := by
  unfold bceWithLogits
  rcases hy with h | h <;> subst h
  · have := log_one_sub_sigmoid_nonpos x
    nlinarith
  · have := log_sigmoid_nonpos x
    nlinarith

theorem addIfNotNone_nonneg {x : ℝ} {y : Option ℝ} (hx : 0 ≤ x)
    (hy : ∀ v, y = some v → 0 ≤ v) : 0 ≤ addIfNotNone x y := by
  unfold addIfNotNone
  cases y with
  | none => exact hx
  | some v => exact add_nonneg hx (hy v rfl)

/-- A weight stored by a previous call is returned unchanged by every later
call with the same key, and the cache is left untouched. -/
theorem getWeight_stable (cache : List (Nat × ℝ)) (n : Nat) :
    getBceMaximaOutlierWeight (getBceMaximaOutlierWeight cache n).2 n =
      ((getBceMaximaOutlierWeight cache n).1, (getBceMaximaOutlierWeight cache n).2) := by
  unfold getBceMaximaOutlierWeight
  cases h : cache.lookup n with
  | some v => simp [h]
  | none => simp [h, List.lookup]

theorem ifEmpty_none_iff {α : Type} (l : List α) (v : ℝ) :
    (if l.isEmpty then (none : Option ℝ) else some v) = none ↔ l = [] := by
  cases l <;> simp

/-!
## Claim C1: the unaligned-maxima selection
-/

/-- C1 counterexample: the unaligned-maxima selection is NOT the xor of the
identity diagonal with the outer product of the inlier labels.  With
inlier labels [true, false, true], cell (0, 1) is selected by the code even
though column channel 1 is not an inlier (the outer-product reading selects
nothing there), and at the scenario input the loss sums all four off-diagonal
cells of the inlier rows, giving 1, not 0.7 + 0.6. -/
theorem unaligned_selection_not_outer_product :
    unalignedInlierIndex inlC1 0 1 = true ∧ inlC1 1 = false ∧
    unalignedInlierIndexSpec inlC1 0 1 = false ∧
    unalignedMaximizerLossA 3 1 moC1 inlC1 = 1 ∧ ((1 : ℝ) ≠ 7/10 + 6/10) := by
  have hp : unalignedSelPairs 3 inlC1 = [(0,1), (0,2), (2,0), (2,1)] := by decide
  have e01 : sigmoid (moC1 0 1) = 1/10 := by
    have h : moC1 0 1 = logit (1/10) := by norm_num [moC1]
    rw [h]
    exact sigmoid_logit (by norm_num) (by norm_num)
  have e02 : sigmoid (moC1 0 2) = 1/5 := by
    have h : moC1 0 2 = logit (1/5) := by norm_num [moC1]
    rw [h]
    exact sigmoid_logit (by norm_num) (by norm_num)
  have e20 : sigmoid (moC1 2 0) = 3/10 := by
    have h : moC1 2 0 = logit (3/10) := by norm_num [moC1]
    rw [h]
    exact sigmoid_logit (by norm_num) (by norm_num)
  have e21 : sigmoid (moC1 2 1) = 2/5 := by
    have h : moC1 2 1 = logit (2/5) := by norm_num [moC1]
    rw [h]
    exact sigmoid_logit (by norm_num) (by norm_num)
  refine ⟨by decide, by decide, by decide, ?_, by norm_num⟩
  simp only [unalignedMaximizerLossA, hp]
  norm_num [e01, e02, e20, e21]

/-- C1 amended: for every inlier label vector the unaligned-maxima selection is
the broadcast of the inlier labels along rows minus the diagonal — cell (r, c)
is selected iff channel r is an inlier and r differs from c, with no condition
on column channel c.  In the scenario (C=3, N=1, inlier labels
[true, false, true]) the unaligned term therefore sums the squashed scores of
all four off-diagonal cells of rows 0 and 2 — 0.1 + 0.2 in row 0 and
0.3 + 0.4 in row 2, including the two cells in non-inlier channel 1's
column. -/
theorem unaligned_selection_row_broadcast :
    (∀ (inl : Nat → Bool) (r c : Nat),
      unalignedInlierIndex inl r c = (inl r && !decide (r = c))) ∧
    unalignedMaximizerLossA 3 1 moC1 inlC1 = 1/10 + 1/5 + 3/10 + 2/5 := by
  constructor
  · intro inl r c
    by_cases h : r = c <;> cases hi : inl r <;>
      simp [unalignedInlierIndex, h, hi]
  · have hp : unalignedSelPairs 3 inlC1 = [(0,1), (0,2), (2,0), (2,1)] := by decide
    have e01 : sigmoid (moC1 0 1) = 1/10 := by
      have h : moC1 0 1 = logit (1/10) := by norm_num [moC1]
      rw [h]
      exact sigmoid_logit (by norm_num) (by norm_num)
    have e02 : sigmoid (moC1 0 2) = 1/5 := by
      have h : moC1 0 2 = logit (1/5) := by norm_num [moC1]
      rw [h]
      exact sigmoid_logit (by norm_num) (by norm_num)
    have e20 : sigmoid (moC1 2 0) = 3/10 := by
      have h : moC1 2 0 = logit (3/10) := by norm_num [moC1]
      rw [h]
      exact sigmoid_logit (by norm_num) (by norm_num)
    have e21 : sigmoid (moC1 2 1) = 2/5 := by
      have h : moC1 2 1 = logit (2/5) := by norm_num [moC1]
      rw [h]
      exact sigmoid_logit (by norm_num) (by norm_num)
    simp only [unalignedMaximizerLossA, hp]
    norm_num [e01, e02, e20, e21]

/-!
## Claim C2: scenario 1 (Variant A, C=2, N=2)
-/

/-- C2 counterexample: at the scenario input (inlier labels [true, true],
outlier labels [false, false], channel blocks squashing to [0.9, 0.1] and
[0.2, 0.8]) the outlier-maximizer term is NOT absent — the non-maximizing
patches (flat rows 1 and 3) of the inlier channels are selected by
`expanded_outlier_labels` — and the inlier-maximizer term is not
−log(max(0.9, ε)) − log(max(0.8, ε)): the designated patch of channel 1 is the
first patch of its block (flat row 2), whose squashed score is 0.2, not 0.8. -/
theorem scenario1_outlier_term_present :
    (forwardACore 2 2 moC2 zeroMat allTrue allFalse (1/10000)).outlierMaximizerLoss ≠ none ∧
    (forwardACore 2 2 moC2 zeroMat allTrue allFalse (1/10000)).inlierMaximizerLoss ≠
      some (nll (1/10000) (9/10) + nll (1/10000) (8/10)) := by
  have h3 : outlierSelRows 2 2 allTrue allFalse = [1, 3] := by decide
  have h2 : inlierSelRows 2 2 allTrue = [0, 2] := by decide
  have e00 : sigmoid (moC2 0 0) = 9/10 := by
    have h : moC2 0 0 = logit (9/10) := by norm_num [moC2]
    rw [h]
    exact sigmoid_logit (by norm_num) (by norm_num)
  have e21 : sigmoid (moC2 2 1) = 1/5 := by
    have h : moC2 2 1 = logit (1/5) := by norm_num [moC2]
    rw [h]
    exact sigmoid_logit (by norm_num) (by norm_num)
  constructor
  · simp [forwardACore, outlierMaximizerLossA, h3]
  · have hv : (forwardACore 2 2 moC2 zeroMat allTrue allFalse (1/10000)).inlierMaximizerLoss =
        some (nll (1/10000) (9/10) + nll (1/10000) (1/5)) := by
      simp only [forwardACore, inlierMaximizerLossA, h2]
      norm_num [e00, e21]
    rw [hv, Ne, Option.some_inj]
    have hlt : Real.log (1/5) < Real.log (8/10) :=
      Real.log_lt_log (by norm_num) (by norm_num)
    have hne : nll (1/10000) (8/10) < nll (1/10000) (1/5) := by
      unfold nll
      rw [max_eq_left (by norm_num), max_eq_left (by norm_num)]
      linarith
    intro hEq
    exact absurd (add_left_cancel hEq) (ne_of_gt hne)

/-- C2 amended: at the scenario input both outlier labels are false, so the
correspondence-outlier term is absent, but the outlier-maximizer term is
present — the non-maximizing patches of the inlier channels (flat rows 1 and 3,
squashed scores 0.1 and 0.8) are its selection, giving
−log(max(1−0.1, ε)) − log(max(1−0.8, ε)).  The inlier-maximizer term uses the
designated first patch of each channel's block (flat rows 0 and 2, squashed
scores 0.9 and 0.2) and equals −log(max(0.9, ε)) − log(max(0.2, ε)). -/
theorem scenario1_amended (eps : ℝ) :
    (forwardACore 2 2 moC2 zeroMat allTrue allFalse eps).outlierCorrespondenceLoss = none ∧
    (forwardACore 2 2 moC2 zeroMat allTrue allFalse eps).inlierMaximizerLoss =
      some (nll eps (9/10) + nll eps (1/5)) ∧
    (forwardACore 2 2 moC2 zeroMat allTrue allFalse eps).outlierMaximizerLoss =
      some (nll eps (9/10) + nll eps (1/5)) := by
  have h1 : corrOutlierSel 2 allFalse = [] := by decide
  have h2 : inlierSelRows 2 2 allTrue = [0, 2] := by decide
  have h3 : outlierSelRows 2 2 allTrue allFalse = [1, 3] := by decide
  have h4 : ([0,1,2,3] : List Nat).filter (fun j => maximaOutlierIndex 2 allTrue allFalse j 0) = [1] := by
    decide
  have h5 : ([0,1,2,3] : List Nat).filter (fun j => maximaOutlierIndex 2 allTrue allFalse j 1) = [3] := by
    decide
  have e00 : sigmoid (moC2 0 0) = 9/10 := by
    have h : moC2 0 0 = logit (9/10) := by norm_num [moC2]
    rw [h]
    exact sigmoid_logit (by norm_num) (by norm_num)
  have e21 : sigmoid (moC2 2 1) = 1/5 := by
    have h : moC2 2 1 = logit (1/5) := by norm_num [moC2]
    rw [h]
    exact sigmoid_logit (by norm_num) (by norm_num)
  have e10 : sigmoid (moC2 1 0) = 1/10 := by
    have h : moC2 1 0 = logit (1/10) := by norm_num [moC2]
    rw [h]
    exact sigmoid_logit (by norm_num) (by norm_num)
  have e31 : sigmoid (moC2 3 1) = 4/5 := by
    have h : moC2 3 1 = logit (4/5) := by norm_num [moC2]
    rw [h]
    exact sigmoid_logit (by norm_num) (by norm_num)
  refine ⟨?_, ?_, ?_⟩
  · simp [forwardACore, outlierCorrespondenceLossA, h1]
  · simp only [forwardACore, inlierMaximizerLossA, h2]
    norm_num [e00, e21]
  · simp only [forwardACore, outlierMaximizerLossA, h3]
    norm_num [List.range_succ, h4, h5, e10, e31, max_self]

/-!
## Claim C3: absent terms, conditional accumulation, all-absent total
-/

/-- C3: in both variants each optional term is reported as the null marker
exactly when its selection is empty for the batch; the total accumulates only
present terms; Variant A's unaligned term is always present (it participates in
every total) and is exactly zero when its selection is empty; and when every
selection is empty the returned total loss is zero. -/
theorem absent_terms_are_none (C N : Nat) (mo co : Nat → Nat → ℝ)
    (inl out : Nat → Bool) (eps : ℝ) (cache : List (Nat × ℝ)) :
    (((forwardACore C N mo co inl out eps).outlierCorrespondenceLoss = none ↔
        corrOutlierSel C out = []) ∧
      ((forwardACore C N mo co inl out eps).outlierMaximizerLoss = none ↔
        outlierSelRows C N inl out = []) ∧
      ((forwardACore C N mo co inl out eps).inlierMaximizerLoss = none ↔
        inlierSelRows C N inl = []) ∧
      (unalignedSelPairs C inl = [] →
        (forwardACore C N mo co inl out eps).unalignedMaximizerLoss = 0) ∧
      (corrOutlierSel C out = [] → outlierSelRows C N inl out = [] →
        inlierSelRows C N inl = [] →
        (forwardACore C N mo co inl out eps).totalLoss =
          (forwardACore C N mo co inl out eps).unalignedMaximizerLoss) ∧
      (corrOutlierSel C out = [] → outlierSelRows C N inl out = [] →
        inlierSelRows C N inl = [] → unalignedSelPairs C inl = [] →
        (forwardACore C N mo co inl out eps).totalLoss = 0)) ∧
    (((forwardBCore C N mo co inl out cache).1.outlierCorrespondenceLoss = none ↔
        corrOutlierSel C out = []) ∧
      ((forwardBCore C N mo co inl out cache).1.bceMaximizerLoss = none ↔
        maximaRows C N inl out = []) ∧
      ((forwardBCore C N mo co inl out cache).1.unalignedMaximizerLoss = none ↔
        unalignedSelPairs C inl = []) ∧
      (corrOutlierSel C out = [] → maximaRows C N inl out = [] →
        unalignedSelPairs C inl = [] →
        (forwardBCore C N mo co inl out cache).1.totalLoss = 0)) := by
  refine ⟨⟨?_, ?_, ?_, ?_, ?_, ?_⟩, ⟨?_, ?_, ?_, ?_⟩⟩
  · exact ifEmpty_none_iff _ _
  · exact ifEmpty_none_iff _ _
  · exact ifEmpty_none_iff _ _
  · intro h
    show ((unalignedSelPairs C inl).map _).sum = 0
    rw [h]
    rfl
  · intro h1 h2 h3
    have o1 : outlierCorrespondenceLossA C co out eps = none := by
      unfold outlierCorrespondenceLossA
      rw [h1]
      rfl
    have o2 : outlierMaximizerLossA C N mo inl out eps = none := by
      unfold outlierMaximizerLossA
      rw [h2]
      rfl
    have o3 : inlierMaximizerLossA C N mo inl eps = none := by
      unfold inlierMaximizerLossA
      rw [h3]
      rfl
    simp [forwardACore, o1, o2, o3, addIfNotNone]
  · intro h1 h2 h3 h4
    have o1 : outlierCorrespondenceLossA C co out eps = none := by
      unfold outlierCorrespondenceLossA
      rw [h1]
      rfl
    have o2 : outlierMaximizerLossA C N mo inl out eps = none := by
      unfold outlierMaximizerLossA
      rw [h2]
      rfl
    have o3 : inlierMaximizerLossA C N mo inl eps = none := by
      unfold inlierMaximizerLossA
      rw [h3]
      rfl
    have o4 : unalignedMaximizerLossA C N mo inl = 0 := by
      unfold unalignedMaximizerLossA
      rw [h4]
      rfl
    simp [forwardACore, o1, o2, o3, o4, addIfNotNone]
  · exact ifEmpty_none_iff _ _
  · exact ifEmpty_none_iff _ _
  · exact ifEmpty_none_iff _ _
  · intro h1 h2 h3
    have b1 : alignedCorrLossB C co out = none := by
      unfold alignedCorrLossB
      rw [h1]
      rfl
    have b3 : unalignedMaximizerLossB C N mo inl = none := by
      unfold unalignedMaximizerLossB
      rw [h3]
      rfl
    simp [forwardBCore, h2, b1, b3, addIfNotNone]

/-- C3 witness: with no labeled channels every selection is empty and both
variants return a zero total. -/
theorem absent_terms_are_none_witness :
    (forwardACore 2 1 zeroMat zeroMat allFalse allFalse 1).totalLoss = 0 ∧
    (forwardBCore 2 1 zeroMat zeroMat allFalse allFalse initialWeightCache).1.totalLoss = 0 := by
  have th := absent_terms_are_none 2 1 zeroMat zeroMat allFalse allFalse 1 initialWeightCache
  exact ⟨th.1.2.2.2.2.2 (by decide) (by decide) (by decide) (by decide),
    th.2.2.2.2 (by decide) (by decide) (by decide)⟩

/-!
## Claim C4: the total loss is non-negative (helper lemmas, then the claim)
-/

theorem outlierCorrespondenceLossA_nonneg {C : Nat} {co : Nat → Nat → ℝ}
    {out : Nat → Bool} {eps : ℝ} (h0 : 0 < eps) (h1 : eps ≤ 1) (v : ℝ)
    (hv : outlierCorrespondenceLossA C co out eps = some v) : 0 ≤ v := by
  unfold outlierCorrespondenceLossA at hv
  split at hv
  · exact absurd hv (by simp)
  · injection hv with hv
    subst hv
    refine List.sum_nonneg ?_
    intro x hx
    obtain ⟨i, _, rfl⟩ := List.mem_map.mp hx
    exact nll_nonneg h0 h1 (sigmoid_lt_one _).le

theorem inlierMaximizerLossA_nonneg {C N : Nat} {mo : Nat → Nat → ℝ}
    {inl : Nat → Bool} {eps : ℝ} (h0 : 0 < eps) (h1 : eps ≤ 1) (v : ℝ)
    (hv : inlierMaximizerLossA C N mo inl eps = some v) : 0 ≤ v := by
  unfold inlierMaximizerLossA at hv
  split at hv
  · exact absurd hv (by simp)
  · injection hv with hv
    subst hv
    refine List.sum_nonneg ?_
    intro x hx
    obtain ⟨j, _, rfl⟩ := List.mem_map.mp hx
    exact nll_nonneg h0 h1 (sigmoid_lt_one _).le

theorem outlierMaximizerLossA_nonneg {C N : Nat} {mo : Nat → Nat → ℝ}
    {inl out : Nat → Bool} {eps : ℝ} (h0 : 0 < eps) (h1 : eps ≤ 1) (v : ℝ)
    (hv : outlierMaximizerLossA C N mo inl out eps = some v) : 0 ≤ v := by
  unfold outlierMaximizerLossA at hv
  split at hv
  · exact absurd hv (by simp)
  · injection hv with hv
    subst hv
    refine List.sum_nonneg ?_
    intro x hx
    obtain ⟨c, _, rfl⟩ := List.mem_map.mp hx
    refine div_nonneg (List.sum_nonneg ?_) (le_max_of_le_right zero_le_one)
    intro y hy
    obtain ⟨j, _, rfl⟩ := List.mem_map.mp hy
    have := sigmoid_pos (mo j c)
    exact nll_nonneg h0 h1 (by linarith)

theorem unalignedMaximizerLossA_nonneg (C N : Nat) (mo : Nat → Nat → ℝ)
    (inl : Nat → Bool) : 0 ≤ unalignedMaximizerLossA C N mo inl := by
  unfold unalignedMaximizerLossA
  refine List.sum_nonneg ?_
  intro x hx
  obtain ⟨p, _, rfl⟩ := List.mem_map.mp hx
  exact (sigmoid_pos _).le

theorem maximaLossSumB_nonneg {C N : Nat} {mo : Nat → Nat → ℝ}
    {inl out : Nat → Bool} {w : ℝ} (hw : 0 ≤ w) :
    0 ≤ maximaLossSumB C N mo inl out w := by
  unfold maximaLossSumB
  refine List.sum_nonneg ?_
  intro x hx
  obtain ⟨j, _, rfl⟩ := List.mem_map.mp hx
  by_cases h : expandedInlier N inl j
  · simp only [h, if_true]
    exact bceWithLogits_nonneg zero_le_one (Or.inr rfl)
  · simp only [h, if_false]
    exact bceWithLogits_nonneg hw (Or.inl rfl)

theorem alignedCorrLossB_nonneg {C : Nat} {co : Nat → Nat → ℝ}
    {out : Nat → Bool} (v : ℝ) (hv : alignedCorrLossB C co out = some v) : 0 ≤ v := by
  unfold alignedCorrLossB at hv
  split at hv
  · exact absurd hv (by simp)
  · injection hv with hv
    subst hv
    refine List.sum_nonneg ?_
    intro x hx
    obtain ⟨i, _, rfl⟩ := List.mem_map.mp hx
    exact bceWithLogits_nonneg zero_le_one (Or.inr rfl)

theorem unalignedMaximizerLossB_nonneg {C N : Nat} {mo : Nat → Nat → ℝ}
    {inl : Nat → Bool} (v : ℝ) (hv : unalignedMaximizerLossB C N mo inl = some v) :
    0 ≤ v := by
  unfold unalignedMaximizerLossB at hv
  split at hv
  · exact absurd hv (by simp)
  · injection hv with hv
    subst hv
    refine List.sum_nonneg ?_
    intro x hx
    obtain ⟨p, _, rfl⟩ := List.mem_map.mp hx
    exact bceWithLogits_nonneg zero_le_one (Or.inl rfl)

/-- C4: for every input the returned total is non-negative (hence finite in the
real-number model): in Variant A whenever the epsilon floor lies in (0, 1], and
in Variant B whenever the outlier class weight returned for the call's N is
non-negative. -/
theorem total_loss_nonneg (C N : Nat) (mo co : Nat → Nat → ℝ) (inl out : Nat → Bool)
    (eps : ℝ) (cache : List (Nat × ℝ)) :
    (0 < eps → eps ≤ 1 → 0 ≤ (forwardACore C N mo co inl out eps).totalLoss) ∧
    (0 ≤ (getBceMaximaOutlierWeight cache N).1 →
      0 ≤ (forwardBCore C N mo co inl out cache).1.totalLoss) := by
  constructor
  · intro h0 h1
    show 0 ≤ addIfNotNone (addIfNotNone (addIfNotNone
      (addIfNotNone 0 (outlierCorrespondenceLossA C co out eps))
      (outlierMaximizerLossA C N mo inl out eps))
      (inlierMaximizerLossA C N mo inl eps))
      (some (unalignedMaximizerLossA C N mo inl))
    refine addIfNotNone_nonneg (addIfNotNone_nonneg (addIfNotNone_nonneg
      (addIfNotNone_nonneg le_rfl ?_) ?_) ?_) ?_
    · exact fun v hv => outlierCorrespondenceLossA_nonneg h0 h1 v hv
    · exact fun v hv => outlierMaximizerLossA_nonneg h0 h1 v hv
    · exact fun v hv => inlierMaximizerLossA_nonneg h0 h1 v hv
    · intro v hv
      injection hv with hv
      subst hv
      exact unalignedMaximizerLossA_nonneg C N mo inl
  · intro hw
    show 0 ≤ addIfNotNone (addIfNotNone (addIfNotNone 0
      (if (maximaRows C N inl out).isEmpty then none
        else some (maximaLossSumB C N mo inl out (getBceMaximaOutlierWeight cache N).1)))
      (alignedCorrLossB C co out))
      (unalignedMaximizerLossB C N mo inl)
    refine addIfNotNone_nonneg (addIfNotNone_nonneg
      (addIfNotNone_nonneg le_rfl ?_) ?_) ?_
    · intro v hv
      split at hv
      · exact absurd hv (by simp)
      · injection hv with hv
        subst hv
        exact maximaLossSumB_nonneg hw
    · exact fun v hv => alignedCorrLossB_nonneg v hv
    · exact fun v hv => unalignedMaximizerLossB_nonneg v hv

/-- C4 witness: a concrete call of each variant with a valid epsilon and the
freshly initialized weight cache yields a non-negative total. -/
theorem total_loss_nonneg_witness :
    0 ≤ (forwardACore 2 1 zeroMat zeroMat allFalse allTrue (1/2)).totalLoss ∧
    0 ≤ (forwardBCore 2 1 zeroMat zeroMat allFalse allTrue initialWeightCache).1.totalLoss := by
  have th := total_loss_nonneg 2 1 zeroMat zeroMat allFalse allTrue (1/2) initialWeightCache
  refine ⟨th.1 (by norm_num) (by norm_num), th.2 ?_⟩
  have h : (getBceMaximaOutlierWeight initialWeightCache 1).1 = 1 := rfl
  rw [h]
  norm_num

/-!
## Claim C5: closed-form outlier weight and memoization
-/

/-- C5: for every N ≥ 2 the weight returned for a fresh N is the closed form
`N·ln(N−1) − ln((N−1)/N) − N·ln(N) + 1`, and a second request with the same N
returns the previously stored value with the cache unchanged. -/
theorem outlier_weight_closed_form_and_memoized (n : Nat) (h : 2 ≤ n) :
    (getBceMaximaOutlierWeight initialWeightCache n).1 = wClosed n ∧
    ∀ cache : List (Nat × ℝ),
      getBceMaximaOutlierWeight (getBceMaximaOutlierWeight cache n).2 n =
        ((getBceMaximaOutlierWeight cache n).1, (getBceMaximaOutlierWeight cache n).2) := by
  constructor
  · have hl : initialWeightCache.lookup n = none := by
      unfold initialWeightCache
      simp only [List.lookup]
      have : (n == 1) = false := by
        simp only [beq_eq_false_iff_ne, ne_eq]
        omega
      rw [this]
    unfold getBceMaximaOutlierWeight
    rw [hl]
  · intro cache
    exact getWeight_stable cache n

/-- C5 witness: the weight for N = 2 computed from the fresh cache is the
closed form evaluated at 2. -/
theorem outlier_weight_closed_form_witness :
    (getBceMaximaOutlierWeight initialWeightCache 2).1 = wClosed 2 :=
  (outlier_weight_closed_form_and_memoized 2 (by norm_num)).1

/-!
## Claim C8: the N = 1 boundary of the weight cache
-/

/-- C8: whenever the cache already stores a value for key 1 — as the
constructor guarantees — the weight lookup for N = 1 returns that pre-stored
value without evaluating the closed-form expression, and a Variant B call with
one patch per channel leaves the cache unchanged. -/
theorem n_one_weight_guarded (cache : List (Nat × ℝ)) (v : ℝ)
    (h : cache.lookup 1 = some v) :
    getBceMaximaOutlierWeight cache 1 = (v, cache) ∧
    ∀ (C : Nat) (mo co : Nat → Nat → ℝ) (inl out : Nat → Bool),
      (forwardBCore C 1 mo co inl out cache).2 = cache := by
  have hg : getBceMaximaOutlierWeight cache 1 = (v, cache) := by
    unfold getBceMaximaOutlierWeight
    rw [h]
  refine ⟨hg, ?_⟩
  intro C mo co inl out
  show (if (maximaRows C 1 inl out).isEmpty then cache
    else (getBceMaximaOutlierWeight cache 1).2) = cache
  rw [hg]
  split <;> rfl

/-- C8 witness: on the freshly initialized cache the N = 1 lookup returns the
pre-stored value 1.0 and does not touch the cache. -/
theorem n_one_weight_guarded_witness :
    getBceMaximaOutlierWeight initialWeightCache 1 = (1, initialWeightCache) :=
  (n_one_weight_guarded initialWeightCache 1 rfl).1

/-!
## Claim C6: scenario 2 and the correspondence-outlier conventions
-/

/-- C6 counterexample: at the scenario input (C=2, N=1, inlier labels
[false, false], outlier labels [true, true]) the maxima-related terms are not
all absent: each outlier channel's single patch is selected by
`expanded_outlier_labels`, so the outlier-maximizer term is present. -/
theorem scenario2_maxima_term_present :
    (forwardACore 2 1 zeroMat coC6 allFalse allTrue (1/10000)).outlierMaximizerLoss ≠ none := by
  have h : outlierSelRows 2 1 allFalse allTrue = [0, 1] := by decide
  simp [forwardACore, outlierMaximizerLossA, h]

/-- C6 amended: at the scenario input Variant A's correspondence-outlier term
equals −log(max(0.95, ε)) − log(max(0.9, ε)) over the squashed diagonal; the
inlier-maximizer term is absent and the unaligned term is zero, but the
outlier-maximizer term is present (computed over the outlier channels' own
patches).  Variant B computes, over the same diagonal selection, BCE with
logits against target label 1, which reduces to −log σ summed. -/
theorem scenario2_amended (eps : ℝ) :
    (forwardACore 2 1 zeroMat coC6 allFalse allTrue eps).outlierCorrespondenceLoss =
      some (nll eps (19/20) + nll eps (9/10)) ∧
    (forwardACore 2 1 zeroMat coC6 allFalse allTrue eps).inlierMaximizerLoss = none ∧
    (forwardACore 2 1 zeroMat coC6 allFalse allTrue eps).unalignedMaximizerLoss = 0 ∧
    (forwardACore 2 1 zeroMat coC6 allFalse allTrue eps).outlierMaximizerLoss ≠ none ∧
    ∀ (C : Nat) (co : Nat → Nat → ℝ) (out : Nat → Bool),
      alignedCorrLossB C co out =
        if (corrOutlierSel C out).isEmpty then none
        else some (((corrOutlierSel C out).map (fun i => -Real.log (sigmoid (co i i)))).sum) := by
  have h1 : corrOutlierSel 2 allTrue = [0, 1] := by decide
  have h2 : inlierSelRows 2 1 allFalse = [] := by decide
  have h3 : outlierSelRows 2 1 allFalse allTrue = [0, 1] := by decide
  have hp : unalignedSelPairs 2 allFalse = [] := by decide
  have e0 : sigmoid (coC6 0 0) = 19/20 := by
    have h : coC6 0 0 = logit (19/20) := by norm_num [coC6]
    rw [h]
    exact sigmoid_logit (by norm_num) (by norm_num)
  have e1 : sigmoid (coC6 1 1) = 9/10 := by
    have h : coC6 1 1 = logit (9/10) := by norm_num [coC6]
    rw [h]
    exact sigmoid_logit (by norm_num) (by norm_num)
  refine ⟨?_, ?_, ?_, ?_, ?_⟩
  · simp only [forwardACore, outlierCorrespondenceLossA, h1]
    norm_num [e0, e1]
  · simp [forwardACore, inlierMaximizerLossA, h2]
  · show ((unalignedSelPairs 2 allFalse).map
      (fun p => sigmoid (zeroMat (p.1 * 1) p.2))).sum = 0
    rw [hp]
    rfl
  · simp [forwardACore, outlierMaximizerLossA, h3]
  · intro C co out
    have hb : ∀ x : ℝ, bceWithLogits 1 x 1 = -Real.log (sigmoid x) := by
      intro x
      unfold bceWithLogits
      ring
    unfold alignedCorrLossB
    simp only [hb]

/-!
## Claim C7: batches with no outlier labels
-/

/-- C7 counterexample: with outlier labels all-false but N = 2 and inlier
channels present, the outlier-maximizer term is NOT absent: the non-maximizing
patches of the inlier channels populate its selection. -/
theorem outlier_maximizer_present_without_outliers :
    (forwardACore 2 2 zeroMat zeroMat allTrue allFalse (1/2)).outlierMaximizerLoss ≠ none := by
  have h : outlierSelRows 2 2 allTrue allFalse = [1, 3] := by decide
  simp [forwardACore, outlierMaximizerLossA, h]

/-- C7 amended: with outlier labels all-false, both variants report the
correspondence-outlier term as absent and the total loss does not depend on the
correspondence scores at all; Variant A's outlier-maximizer term is absent
when N = 1 (with N ≥ 2 the non-maximizing patches of inlier channels still
feed it). -/
theorem all_false_outliers_amended (C N : Nat) (mo co co2 : Nat → Nat → ℝ)
    (inl : Nat → Bool) (eps : ℝ) (cache : List (Nat × ℝ)) :
    (forwardACore C N mo co inl allFalse eps).outlierCorrespondenceLoss = none ∧
    (forwardACore C 1 mo co inl allFalse eps).outlierMaximizerLoss = none ∧
    (forwardACore C N mo co inl allFalse eps).totalLoss =
      (forwardACore C N mo co2 inl allFalse eps).totalLoss ∧
    (forwardBCore C N mo co inl allFalse cache).1.outlierCorrespondenceLoss = none ∧
    (forwardBCore C N mo co inl allFalse cache).1.totalLoss =
      (forwardBCore C N mo co2 inl allFalse cache).1.totalLoss := by
  have hsel : corrOutlierSel C allFalse = [] := by
    simp [corrOutlierSel, allFalse]
  have hout1 : outlierSelRows C 1 inl allFalse = [] := by
    simp [outlierSelRows, expandedOutlier, hasData, expandedInlier, allFalse,
      Nat.mod_one, Nat.div_one]
  have ocl : ∀ c : Nat → Nat → ℝ, outlierCorrespondenceLossA C c allFalse eps = none := by
    intro c
    unfold outlierCorrespondenceLossA
    rw [hsel]
    rfl
  have acl : ∀ c : Nat → Nat → ℝ, alignedCorrLossB C c allFalse = none := by
    intro c
    unfold alignedCorrLossB
    rw [hsel]
    rfl
  refine ⟨ocl co, ?_, ?_, acl co, ?_⟩
  · show outlierMaximizerLossA C 1 mo inl allFalse eps = none
    unfold outlierMaximizerLossA
    rw [hout1]
    rfl
  · have h1 := ocl co
    have h2 := ocl co2
    simp only [forwardACore, h1, h2]
  · have h1 := acl co
    have h2 := acl co2
    simp only [forwardBCore, h1, h2]

/-!
## Claim C9: determinism across repeated calls
-/

/-- C9: a second Variant B call with identical inputs, starting from the cache
state left by the first call, returns exactly the first call's result and cache:
the memoized weight stored by the first call is a pure function of N, so the
cache cannot change the result.  (Variant A keeps no cross-call state at all:
it is embedded as a pure function of its inputs.) -/
theorem second_call_is_identical (C N : Nat) (mo co : Nat → Nat → ℝ)
    (inl out : Nat → Bool) (cache : List (Nat × ℝ)) :
    forwardBCore C N mo co inl out (forwardBCore C N mo co inl out cache).2 =
      forwardBCore C N mo co inl out cache := by
  by_cases h : (maximaRows C N inl out).isEmpty
  · have h2 : (forwardBCore C N mo co inl out cache).2 = cache := by
      show (if (maximaRows C N inl out).isEmpty then cache
        else (getBceMaximaOutlierWeight cache N).2) = cache
      rw [if_pos h]
    rw [h2]
  · have h2 : (forwardBCore C N mo co inl out cache).2 =
        (getBceMaximaOutlierWeight cache N).2 := by
      show (if (maximaRows C N inl out).isEmpty then cache
        else (getBceMaximaOutlierWeight cache N).2) = _
      rw [if_neg h]
    rw [h2]
    simp only [forwardBCore, getWeight_stable, h]
    simp

/-!
## Claim C10: the C = 1 boundary of the public interface
-/

/-- C10: with exactly one channel both variants fail before producing a result,
for every batch size, square spatial footprint and label assignment: the
squeeze collapses the channel dimension (and reduces the 1x1 correspondence
tensor to a scalar), so the 2-D boolean-mask indexing and the access to the
second shape dimension raise an index error even though every documented
precondition (divisibility, square footprint, disjoint labels) holds. -/
theorem single_channel_raises_index_error (B S : Nat) (mo co : Nat → Nat → ℝ)
    (inl out : Nat → Bool) (eps : ℝ) (cache : List (Nat × ℝ)) :
    forwardAChecked B 1 S S mo co inl out eps = Except.error "IndexError" ∧
    forwardBChecked B 1 S S mo co inl out cache = Except.error "IndexError" := by
  have hs : squeezeShape [1, 1] = [] := by decide
  constructor
  · unfold forwardAChecked
    rw [if_neg (by simp [Nat.mod_one]), if_neg (by simp), if_pos (by rw [hs]; simp)]
  · unfold forwardBChecked
    rw [if_neg (by simp [Nat.mod_one]), if_neg (by simp), if_pos (by rw [hs]; simp)]
